import Mathlib

/-!
Verification of the merge and generation semantics of mame_to_batocera.py
(a MAME DAT to Batocera gamelist.xml converter).

The development shallowly embeds the parts of the program the claims are
about:

* the three-tier metadata merge (merge_metadata, lines 365-389), over
  records modelled as string-keyed dictionaries of Python values with
  Python truthiness;
* gamelist entry generation (create_gamelist_entry, lines 257-363), over a
  fixed record of optional XML child elements, each element holding an
  optional text;
* loading of an existing gamelist (load_existing_gamelist, lines 231-255),
  keyed by the stem of each entry's path text;
* gamelist generation and serialization (generate_gamelist lines 391-433
  and the pretty-printer _prettify_xml lines 435-456), producing the exact
  output text;
* the top-level run (lines 464-518) and the filesystem writes the run
  performs, for the error-handling and dry-run claims;
* artwork media classification (extract_media_from_zip, lines 127-155).
-/

/-! ## Metadata records and the three-tier merge (merge_metadata) -/

/-- A value stored in a parsed DAT record.  parse_dat_xml (lines 72-125)
produces string fields (name, description, year, manufacturer, players,
driver_status, driver_emulation) and boolean flags (isbios, ismechanical,
isdevice). -/
inductive Val where
  | str (s : String)
  | bool (b : Bool)
deriving DecidableEq

/-- Python truthiness of a record value, mirroring the bare `if v` tests in
merge_metadata: a string is truthy iff nonempty, a boolean iff true. -/
def Val.truthy : Val → Bool
  | .str s => s != ""
  | .bool b => b

/-- A parsed metadata record: a string-keyed dictionary of values
(none = the key is absent from the dict). -/
def MRec := String → Option Val

/-- A per-source mapping of machine identifier to metadata record, as
returned by parse_dat_xml. -/
def MDict := String → Option MRec

/-- CHD tier of merge_metadata (line 379):
`merged[n].update({k: v for k, v in data.items() if v})` — every truthy
CHD value overwrites the ROM value; a falsy or absent CHD value leaves the
ROM value in place. -/
def mergeRecordCHD (romRec chdRec : MRec) : MRec := fun k =>
  match chdRec k with
  | some v => if v.truthy then some v else romRec k
  | none => romRec k

/-- Artwork tier of merge_metadata (line 387):
`merged[n].update({k: v for k, v in data.items() if v and k not in merged[n]})`
— only truthy artwork values on keys not yet present are added. -/
def mergeRecordArt (m artRec : MRec) : MRec := fun k =>
  match artRec k with
  | some v => if v.truthy && (m k).isNone then some v else m k
  | none => m k

/-- The ROM+CHD stage of merge_metadata (lines 369-379): start from a copy
of the ROM mapping, insert CHD-only identifiers whole, and merge CHD
records into ROM records identifier-wise. -/
def mergeRomChd (rom chd : MDict) : MDict := fun id =>
  match rom id, chd id with
  | some r, some c => some (mergeRecordCHD r c)
  | some r, none => some r
  | none, some c => some c
  | none, none => none

/-- merge_metadata (lines 365-389): the ROM+CHD stage followed by the
artwork stage (artwork-only identifiers inserted whole, otherwise the
artwork record merged by mergeRecordArt). -/
def merge_metadata (rom chd art : MDict) : MDict := fun id =>
  match mergeRomChd rom chd id, art id with
  | some m, some a => some (mergeRecordArt m a)
  | some m, none => some m
  | none, some a => some a
  | none, none => none

/-- Look one field of one identifier up through a dictionary of records. -/
def atField (d : MDict) (id k : String) : Option Val :=
  match d id with
  | some r => r k
  | none => none

/-! ### C1 -/

/-- Concrete ROM record for the C1 input: description present and truthy. -/
def c1romRec : MRec := fun k =>
  if k = "description" then some (.str "romdesc") else none

/-- Concrete CHD record for the C1 input: description present, truthy, and
in conflict with the ROM value. -/
def c1chdRec : MRec := fun k =>
  if k = "description" then some (.str "chddesc") else none

/-- C1 concrete ROM mapping. -/
def c1rom : MDict := fun id => if id = "mk" then some c1romRec else none

/-- C1 concrete CHD mapping. -/
def c1chd : MDict := fun id => if id = "mk" then some c1chdRec else none

/-- C1 concrete artwork mapping (empty). -/
def c1art : MDict := fun _ => none

/-- C1: counterexample to the claim as stated.  Identifier "mk" is present
in both the ROM and the CHD mapping and both carry truthy values on the
field "description", yet the merged record keeps the CHD value "chddesc",
not the ROM value "romdesc": merge_metadata line 379 lets every truthy CHD
value overwrite the ROM value. -/
theorem c1_counterexample :
    atField c1rom "mk" "description" = some (.str "romdesc") ∧
    atField c1chd "mk" "description" = some (.str "chddesc") ∧
    (Val.str "romdesc").truthy = true ∧
    (Val.str "chddesc").truthy = true ∧
    atField (merge_metadata c1rom c1chd c1art) "mk" "description"
      = some (.str "chddesc") := by
  refine ⟨rfl, rfl, rfl, rfl, ?_⟩
  decide

/-- C1 (amended): for an identifier present in both the ROM and the CHD
mapping, a truthy CHD value always overwrites the ROM value in the merged
record (and the artwork stage never displaces it); the ROM value survives
only on fields where the CHD value is missing or falsy. -/
theorem c1_chd_overwrites (rom chd art : MDict) (id k : String) (r c : MRec)
    (hr : rom id = some r) (hc : chd id = some c) :
    (∀ v, c k = some v → v.truthy = true →
      atField (merge_metadata rom chd art) id k = some v) ∧
    (∀ w, r k = some w →
      (c k = none ∨ ∃ v, c k = some v ∧ v.truthy = false) →
      atField (merge_metadata rom chd art) id k = some w) := by
  have hm : mergeRomChd rom chd id = some (mergeRecordCHD r c) := by
    unfold mergeRomChd
    rw [hr, hc]
  constructor
  · intro v hv htr
    have hmk : mergeRecordCHD r c k = some v := by
      unfold mergeRecordCHD
      rw [hv]
      simp [htr]
    unfold atField merge_metadata
    rw [hm]
    cases hart : art id with
    | none => simpa using hmk
    | some a =>
      simp only [mergeRecordArt]
      cases hak : a k with
      | none => simpa using hmk
      | some w =>
        rw [hmk]
        simp
  · intro w hw hcf
    have hmk : mergeRecordCHD r c k = some w := by
      unfold mergeRecordCHD
      rcases hcf with hnone | ⟨v, hv, hvf⟩
      · rw [hnone, hw]
      · rw [hv]
        simp [hvf, hw]
    unfold atField merge_metadata
    rw [hm]
    cases hart : art id with
    | none => simpa using hmk
    | some a =>
      simp only [mergeRecordArt]
      cases hak : a k with
      | none => simpa using hmk
      | some v =>
        rw [hmk]
        simp

/-- C1 witness: the amended theorem applied at the concrete conflicting
input. -/
theorem c1_witness :
    c1rom "mk" = some c1romRec ∧ c1chd "mk" = some c1chdRec ∧
    c1chdRec "description" = some (.str "chddesc") ∧
    (Val.str "chddesc").truthy = true ∧
    atField (merge_metadata c1rom c1chd c1art) "mk" "description"
      = some (.str "chddesc") :=
  ⟨rfl, rfl, by decide, by decide,
    (c1_chd_overwrites c1rom c1chd c1art "mk" "description" c1romRec c1chdRec
      rfl rfl).1 (.str "chddesc") (by decide) (by decide)⟩

/-! ### C3 -/

/-- C3: the artwork merge tier.  For an identifier already present after
the ROM+CHD stage, the whole-merge result is exactly the artwork-merged
record, in which (i) every already-present field keeps its value — artwork
never overwrites an existing key, even one holding a falsy value; (ii) an
absent field is filled by a truthy artwork value; (iii) an absent field
stays absent when the artwork value is missing or falsy.  For an
identifier not present after the ROM+CHD stage, the artwork record is
inserted whole. -/
theorem c3_artwork_augments (rom chd art : MDict) (id : String) :
    (∀ m a, mergeRomChd rom chd id = some m → art id = some a →
      merge_metadata rom chd art id = some (mergeRecordArt m a) ∧
      (∀ k v, m k = some v → mergeRecordArt m a k = some v) ∧
      (∀ k w, m k = none → a k = some w → w.truthy = true →
        mergeRecordArt m a k = some w) ∧
      (∀ k, m k = none → (∀ w, a k = some w → w.truthy = false) →
        mergeRecordArt m a k = none)) ∧
    (∀ a, mergeRomChd rom chd id = none → art id = some a →
      merge_metadata rom chd art id = some a) := by
  constructor
  · intro m a hm ha
    refine ⟨?_, ?_, ?_, ?_⟩
    · unfold merge_metadata
      rw [hm, ha]
    · intro k v hv
      unfold mergeRecordArt
      cases hak : a k with
      | none => exact hv
      | some w =>
        rw [hv]
        simp
    · intro k w hmk hak htr
      unfold mergeRecordArt
      rw [hak]
      simp [htr, hmk]
    · intro k hmk hfa
      unfold mergeRecordArt
      cases hak : a k with
      | none => exact hmk
      | some w =>
        simp [hfa w hak, hmk]
  · intro a hm ha
    unfold merge_metadata
    rw [hm, ha]

/-- C3 concrete ROM+CHD-merged record: name present and truthy, year
present but falsy (empty string). -/
def c3mRec : MRec := fun k =>
  if k = "name" then some (.str "pacman")
  else if k = "year" then some (.str "") else none

/-- C3 concrete artwork record: conflicts on name and year, adds genre. -/
def c3aRec : MRec := fun k =>
  if k = "name" then some (.str "artname")
  else if k = "year" then some (.str "1980")
  else if k = "genre" then some (.str "Arcade") else none

/-- C3 concrete ROM mapping holding the merged record directly (the CHD
mapping is empty, so the ROM+CHD stage returns the ROM record). -/
def c3rom : MDict := fun id => if id = "pac" then some c3mRec else none

/-- C3 concrete empty CHD mapping. -/
def c3chd : MDict := fun _ => none

/-- C3 concrete artwork mapping. -/
def c3art : MDict := fun id => if id = "pac" then some c3aRec else none

/-- C3 witness: the theorem applied at a concrete input — artwork keeps the
truthy name, does not overwrite the falsy (empty) year, and fills the
absent genre. -/
theorem c3_witness :
    mergeRomChd c3rom c3chd "pac" = some c3mRec ∧
    c3art "pac" = some c3aRec ∧
    mergeRecordArt c3mRec c3aRec "name" = some (.str "pacman") ∧
    mergeRecordArt c3mRec c3aRec "year" = some (.str "") ∧
    mergeRecordArt c3mRec c3aRec "genre" = some (.str "Arcade") := by
  have h := (c3_artwork_augments c3rom c3chd c3art "pac").1 c3mRec c3aRec rfl rfl
  refine ⟨rfl, rfl, ?_, ?_, ?_⟩
  · exact h.2.1 "name" (.str "pacman") (by decide)
  · exact h.2.1 "year" (.str "") (by decide)
  · exact h.2.2.1 "genre" (.str "Arcade") (by decide) (by decide) (by decide)

/-! ## Gamelist entries and create_gamelist_entry -/

/-- The metadata a merged record carries into create_gamelist_entry.
parse_dat_xml always sets the description, year and manufacturer keys
(findtext with default ""), so they are plain strings; players,
driver_status and driver_emulation are set only when the corresponding
child element exists, so they are optional (mame_data.get returns None
when absent).  Because description is always present, the
`.get('description', rom_name)` default at line 275 can never fire. -/
structure GameData where
  description : String
  year : String
  manufacturer : String
  isbios : Bool
  ismechanical : Bool
  isdevice : Bool
  players : Option String
  driver_status : Option String
  driver_emulation : Option String
deriving DecidableEq

/-- A gamelist game element.  Each field models one child element: the
outer Option is element presence (find(tag) is not None), the inner
Option is the element's text (None when the element has no text). -/
structure Entry where
  path : Option (Option String)
  name : Option (Option String)
  desc : Option (Option String)
  image : Option (Option String)
  thumbnail : Option (Option String)
  marquee : Option (Option String)
  video : Option (Option String)
  rating : Option (Option String)
  releasedate : Option (Option String)
  developer : Option (Option String)
  publisher : Option (Option String)
  genre : Option (Option String)
  players : Option (Option String)
  hidden : Option (Option String)
deriving DecidableEq

/-- Element lookup on an optional existing game:
`existing_game is not None and existing_game.find(tag) is not None`. -/
def getE (ex : Option Entry) (sel : Entry → Option (Option String)) :
    Option (Option String) :=
  match ex with
  | some e => sel e
  | none => none

/-- The per-field pattern of create_gamelist_entry: the child element is
always created; its text is the existing element's text when the existing
entry has the element, and the derived fallback text otherwise. -/
def fallbackField (ex : Option Entry) (sel : Entry → Option (Option String))
    (fb : Option String) : Option (Option String) :=
  some (match getE ex sel with
    | some t => t
    | none => fb)

/-- The leading-four-digit pattern match of line 326,
`re.match(r'(\d{4})', year)`: succeeds iff the first four characters of
the year are digits, capturing exactly those four characters. -/
def leadingFourDigits (y : String) : Option String :=
  match y.toList with
  | a :: b :: c :: d :: _ =>
    if a.isDigit && b.isDigit && c.isDigit && d.isDigit then
      some (String.mk [a, b, c, d])
    else none
  | _ => none

/-- The year-to-releasedate conversion of lines 319-328: nothing for a
falsy (empty) year; a 4-digit year maps to year ++ "0101T000000";
otherwise the leading four digits are extracted, and a year whose first
four characters are not all digits yields no text at all. -/
def yearReleasedate (year : String) : Option String :=
  if year = "" then none
  else if year.toList.all Char.isDigit && year.length == 4 then
    some (year ++ "0101T000000")
  else
    match leadingFourDigits year with
    | some d => some (d ++ "0101T000000")
    | none => none

/-- create_gamelist_entry (lines 257-363).  Every standard child element
is created unconditionally (SubElement), with existing text winning over
the derived fallback; only the hidden element is conditional, and it is
derived from the new driver status alone (lines 359-361), never from the
existing entry.  snap_map and marquee_map enter only through membership
tests (`rom_name in snap_map`), so they are modelled as membership
predicates; flyer_map is passed by the caller but never used. -/
def create_gamelist_entry (rom_name : String) (mame_data : GameData)
    (existing : Option Entry) (snap_map : String → Bool)
    (marquee_map : String → Bool) : Entry :=
  { path := fallbackField existing (fun e => e.path)
      (some ("./" ++ rom_name ++ ".zip"))
    name := fallbackField existing (fun e => e.name)
      (some mame_data.description)
    desc := fallbackField existing (fun e => e.desc)
      (some mame_data.description)
    image := fallbackField existing (fun e => e.image)
      (if snap_map rom_name then
        some ("./media/screenshots/" ++ rom_name ++ ".png") else none)
    thumbnail := fallbackField existing (fun e => e.thumbnail)
      (if snap_map rom_name then
        some ("./media/screenshots/" ++ rom_name ++ ".png") else none)
    marquee := fallbackField existing (fun e => e.marquee)
      (if marquee_map rom_name then
        some ("./media/marquees/" ++ rom_name ++ ".png") else none)
    video := fallbackField existing (fun e => e.video) none
    rating := fallbackField existing (fun e => e.rating) none
    releasedate := fallbackField existing (fun e => e.releasedate)
      (yearReleasedate mame_data.year)
    developer := fallbackField existing (fun e => e.developer)
      (some mame_data.manufacturer)
    publisher := fallbackField existing (fun e => e.publisher)
      (some mame_data.manufacturer)
    genre := fallbackField existing (fun e => e.genre) (some "Arcade")
    players := fallbackField existing (fun e => e.players) mame_data.players
    hidden := match mame_data.driver_status with
      | some s => if s = "preliminary" || s = "imperfect" then
          some (some "true") else none
      | none => none }

/-- The thirteen standard child elements of a generated game element, in
document order (the hidden flag is handled separately at lines 359-361). -/
inductive GField where
  | path | name | desc | image | thumbnail | marquee | video | rating
  | releasedate | developer | publisher | genre | players
deriving DecidableEq

/-- Select one of the thirteen standard child elements of an entry. -/
def getField (e : Entry) : GField → Option (Option String)
  | .path => e.path
  | .name => e.name
  | .desc => e.desc
  | .image => e.image
  | .thumbnail => e.thumbnail
  | .marquee => e.marquee
  | .video => e.video
  | .rating => e.rating
  | .releasedate => e.releasedate
  | .developer => e.developer
  | .publisher => e.publisher
  | .genre => e.genre
  | .players => e.players

/-! ## Serialization (ET.tostring after _prettify_xml) -/

/-- The character escaping ElementTree applies to element text. -/
def escChar (c : Char) : String :=
  if c = '&' then "&amp;"
  else if c = '<' then "&lt;"
  else if c = '>' then "&gt;"
  else String.singleton c

/-- Escape a whole text. -/
def escapeXml (s : String) : String :=
  String.join (s.toList.map escChar)

/-- Serialize one child element followed by the tail _prettify_xml gives a
depth-2 leaf ("\n" plus four spaces).  An absent element produces nothing;
an element whose text is None or "" serializes as a self-closed empty tag
(ElementTree writes text only when it is truthy). -/
def serializeField (tag : String) (f : Option (Option String)) : String :=
  match f with
  | none => ""
  | some none => "<" ++ tag ++ " />" ++ "\n    "
  | some (some s) =>
    (if s = "" then "<" ++ tag ++ " />"
     else "<" ++ tag ++ ">" ++ escapeXml s ++ "</" ++ tag ++ ">") ++
    "\n    "

/-- Serialize one game element, with the text and tail whitespace
_prettify_xml assigns at depth 1 (the element text indents to depth 2, the
tail returns to depth 1). -/
def serializeEntry (e : Entry) : String :=
  "<game>" ++ "\n    " ++
  serializeField "path" e.path ++
  serializeField "name" e.name ++
  serializeField "desc" e.desc ++
  serializeField "image" e.image ++
  serializeField "thumbnail" e.thumbnail ++
  serializeField "marquee" e.marquee ++
  serializeField "video" e.video ++
  serializeField "rating" e.rating ++
  serializeField "releasedate" e.releasedate ++
  serializeField "developer" e.developer ++
  serializeField "publisher" e.publisher ++
  serializeField "genre" e.genre ++
  serializeField "players" e.players ++
  serializeField "hidden" e.hidden ++
  "</game>" ++ "\n  "

/-- Serialize the whole gamelist document: the XML declaration line added
by _prettify_xml at level 0, then the gameList root (self-closed when
empty, since the pretty-printer leaves a childless root untouched). -/
def serializeGamelist (es : List Entry) : String :=
  "<?xml version=\"1.0\"?>" ++ "\n" ++
  (match es with
   | [] => "<gameList />"
   | _ => "<gameList>" ++ "\n  " ++ String.join (es.map serializeEntry) ++
       "</gameList>" ++ "\n")

/-! ### C2 -/

/-- Concrete existing entry for C2: a previously generated record with a
hand-edited rating and a hidden flag. -/
def c2exist : Entry :=
  { path := some (some "./pacman.zip")
    name := some (some "Hand Edited Name")
    desc := some (some "Hand edited description")
    image := some none
    thumbnail := some none
    marquee := some none
    video := some none
    rating := some (some "0.9")
    releasedate := some (some "19800101T000000")
    developer := some (some "Namco")
    publisher := some (some "Namco")
    genre := some (some "Maze")
    players := some (some "2")
    hidden := some (some "true") }

/-- Concrete new catalog data for C2: driver status "good", so the code
derives no hidden flag. -/
def c2data : GameData :=
  { description := "Pac-Man"
    year := "1980"
    manufacturer := "Namco"
    isbios := false
    ismechanical := false
    isdevice := false
    players := some "2"
    driver_status := some "good"
    driver_emulation := some "good" }

/-- C2: counterexample to the claim as stated.  The existing record
carries a hidden element with text "true", but the generated record drops
it: create_gamelist_entry derives hidden from the new driver status alone
(lines 359-361) and never consults the existing entry, so the hidden flag
is not preserved. -/
theorem c2_counterexample :
    c2exist.hidden = some (some "true") ∧
    (create_gamelist_entry "pacman" c2data (some c2exist)
      (fun _ => false) (fun _ => false)).hidden = none := by
  constructor
  · rfl
  · decide

/-- C2 (amended): every one of the thirteen standard field elements
present in the existing record (path, name, desc, image, thumbnail,
marquee, video, rating, releasedate, developer, publisher, genre, players
— in particular a hand-edited rating) is preserved with its existing text
unchanged, regardless of the newly derived values; the hidden flag is the
exception — it is recomputed from the new driver status and an existing
hidden element is dropped. -/
theorem c2_fixed_fields_preserved (rom_name : String) (mame_data : GameData)
    (e : Entry) (snap_map marquee_map : String → Bool) (f : GField)
    (t : Option String) (h : getField e f = some t) :
    getField (create_gamelist_entry rom_name mame_data (some e)
      snap_map marquee_map) f = some t := by
  cases f <;>
    simp_all [create_gamelist_entry, getField, fallbackField, getE]

/-- C2 witness: the amended theorem applied at the concrete input — the
hand-edited rating survives even though the catalog derives no rating. -/
theorem c2_witness :
    getField c2exist .rating = some (some "0.9") ∧
    getField (create_gamelist_entry "pacman" c2data (some c2exist)
      (fun _ => false) (fun _ => false)) .rating = some (some "0.9") :=
  ⟨rfl,
    c2_fixed_fields_preserved "pacman" c2data c2exist
      (fun _ => false) (fun _ => false) .rating (some "0.9") rfl⟩

/-! ### C7 -/

/-- Concrete data for C7 with the partial year "198?" from the claim. -/
def c7data : GameData :=
  { description := "Some Game"
    year := "198?"
    manufacturer := "Mfg"
    isbios := false
    ismechanical := false
    isdevice := false
    players := none
    driver_status := none
    driver_emulation := none }

/-- C7: counterexample to the claim as stated.  A year value "198?" does
NOT yield release-date text "19850101T000000": re.match(r'(\d{4})', y)
needs four leading digits and "198?" has only three, so the generated
record's releasedate element is created with no text at all (and in
particular the field is present in the output, not omitted). -/
theorem c7_counterexample :
    (create_gamelist_entry "g" c7data none
      (fun _ => false) (fun _ => false)).releasedate = some none ∧
    some none ≠ some (some "19850101T000000") := by
  constructor
  · decide
  · decide

/-- The year branch of lines 319-328 computes exactly the leading-four-
digit extraction: a nonempty all-digit 4-character year takes the fast
branch to the same value the pattern match would give. -/
theorem yearReleasedate_eq (y : String) :
    yearReleasedate y
      = (leadingFourDigits y).map (fun s => s ++ "0101T000000") := by
  unfold yearReleasedate
  by_cases hy : y = ""
  · subst hy
    decide
  · simp only [hy, if_false]
    by_cases hd : (y.toList.all Char.isDigit && y.length == 4) = true
    · simp only [hd, if_true]
      have hlen : y.toList.length = 4 := by
        have h2 := (Bool.and_eq_true _ _).mp hd |>.2
        have h3 : y.length = 4 := by simpa using h2
        exact h3
      have hdig : ∀ c ∈ y.toList, c.isDigit = true := by
        have h1 := (Bool.and_eq_true _ _).mp hd |>.1
        intro c hc
        exact List.all_eq_true.mp h1 c hc
      match hl : y.toList, hlen with
      | [a, b, c, d], _ =>
        have ha := hdig a (by rw [hl]; simp)
        have hb := hdig b (by rw [hl]; simp)
        have hc := hdig c (by rw [hl]; simp)
        have hd4 := hdig d (by rw [hl]; simp)
        have hy4 : String.mk [a, b, c, d] = y := by
          rw [← hl]
          cases y
          rfl
        unfold leadingFourDigits
        rw [hl]
        simp [ha, hb, hc, hd4, hy4]
    · simp only [hd, if_false]
      cases hlf : leadingFourDigits y <;> simp

/-- C7 (amended): for a generated record with no existing releasedate, the
releasedate element is always created, and its text is determined by the
leading-four-digit extraction: a year "1985" yields text "19850101T000000";
a year like "1985?" also yields "19850101T000000"; but "198?" (only three
leading digits) and a missing or otherwise non-matching year yield a
releasedate element with no text — the field is emitted as an empty
element, never omitted. -/
theorem c7_releasedate (rom_name : String) (mame_data : GameData)
    (snap_map marquee_map : String → Bool) :
    ((create_gamelist_entry rom_name mame_data none snap_map
        marquee_map).releasedate
      = some ((leadingFourDigits mame_data.year).map
          (fun s => s ++ "0101T000000"))) ∧
    (∀ e : Entry, e.releasedate = none →
      (create_gamelist_entry rom_name mame_data (some e) snap_map
          marquee_map).releasedate
        = some ((leadingFourDigits mame_data.year).map
            (fun s => s ++ "0101T000000"))) := by
  constructor
  · simp [create_gamelist_entry, fallbackField, getE, yearReleasedate_eq]
  · intro e he
    simp [create_gamelist_entry, fallbackField, getE, he, yearReleasedate_eq]

/-- Existing entry for the C7 witness: present but with no releasedate
element. -/
def c7exist : Entry :=
  { path := some (some "./g.zip")
    name := none
    desc := none
    image := none
    thumbnail := none
    marquee := none
    video := none
    rating := none
    releasedate := none
    developer := none
    publisher := none
    genre := none
    players := none
    hidden := none }

/-- Data for the C7 witness with the plain year "1985". -/
def c7data1985 : GameData :=
  { description := "Some Game"
    year := "1985"
    manufacturer := "Mfg"
    isbios := false
    ismechanical := false
    isdevice := false
    players := none
    driver_status := none
    driver_emulation := none }

/-- C7 witness: the amended theorem applied at year "1985" and an existing
entry without a releasedate element. -/
theorem c7_witness :
    c7exist.releasedate = none ∧
    (create_gamelist_entry "g" c7data1985 (some c7exist)
      (fun _ => false) (fun _ => false)).releasedate
      = some (some "19850101T000000") := by
  refine ⟨rfl, ?_⟩
  rw [(c7_releasedate "g" c7data1985 (fun _ => false) (fun _ => false)).2
    c7exist rfl]
  decide

/-! ### C9 -/

/-- Data for the C9 counterexample: no description, no year, no
manufacturer, no players, no driver status, and the identifier is in no
media index — nothing is derivable beyond path and genre. -/
def c9data : GameData :=
  { description := ""
    year := ""
    manufacturer := ""
    isbios := false
    ismechanical := false
    isdevice := false
    players := none
    driver_status := none
    driver_emulation := none }

set_option maxRecDepth 4000 in
/-- C9: counterexample to the claim as stated.  With no existing record
and no derivable values, the serialized game element still contains an
empty element for every valueless field — video, rating, image, thumbnail,
marquee, releasedate, players all appear as self-closed empty tags rather
than being omitted (every SubElement at lines 284-356 is created
unconditionally). -/
theorem c9_counterexample :
    serializeEntry (create_gamelist_entry "pacman" c9data none
      (fun _ => false) (fun _ => false))
      = "<game>\n    <path>./pacman.zip</path>\n    <name />\n    " ++
        "<desc />\n    <image />\n    <thumbnail />\n    <marquee />\n    " ++
        "<video />\n    <rating />\n    <releasedate />\n    " ++
        "<developer />\n    <publisher />\n    <genre>Arcade</genre>\n    " ++
        "<players />\n    </game>\n  " := by
  decide

/-- C9 (amended): every generated game element contains all thirteen
standard child elements — a field with no existing and no derivable value
is emitted as an empty element, not omitted; only the hidden element is
conditional. -/
theorem c9_elements_always_present (rom_name : String)
    (mame_data : GameData) (existing : Option Entry)
    (snap_map marquee_map : String → Bool) (f : GField) :
    (getField (create_gamelist_entry rom_name mame_data existing snap_map
      marquee_map) f).isSome = true := by
  cases f <;>
    simp [create_gamelist_entry, getField, fallbackField]

/-! ## Round trip through the written file

Serializing an entry and parsing the written document back (ET.parse in
load_existing_gamelist) returns the same elements and texts, except that
an element whose text was the empty string is read back with no text: the
serializer writes text only when truthy, so both None and "" serialize as
a self-closed tag, which parses back to a text of None. -/

/-- Text normalization performed by the serialize/parse round trip. -/
def textNorm (t : Option String) : Option String :=
  match t with
  | some s => if s = "" then none else some s
  | none => none

/-- A game element as read back from the written gamelist.xml. -/
def reparseEntry (e : Entry) : Entry :=
  { path := e.path.map textNorm
    name := e.name.map textNorm
    desc := e.desc.map textNorm
    image := e.image.map textNorm
    thumbnail := e.thumbnail.map textNorm
    marquee := e.marquee.map textNorm
    video := e.video.map textNorm
    rating := e.rating.map textNorm
    releasedate := e.releasedate.map textNorm
    developer := e.developer.map textNorm
    publisher := e.publisher.map textNorm
    genre := e.genre.map textNorm
    players := e.players.map textNorm
    hidden := e.hidden.map textNorm }

/-! ## Path stems, the existing-gamelist dictionary, and generation -/

/-- The final path component: characters after the last slash.
(Path objects also normalize trailing slashes; the paths this program
reads and writes have the form "./name.zip", which needs no
normalization.) -/
def basenameChars (cs : List Char) : List Char :=
  (cs.reverse.takeWhile (fun c => c != '/')).reverse

/-- Drop the last extension from a basename, like pathlib's stem: cut at
the last dot unless it is the leading character. -/
def stemChars (cs : List Char) : List Char :=
  match cs.reverse.dropWhile (fun c => c != '.') with
  | [] => cs
  | _ :: rest => if rest.isEmpty then cs else rest.reverse

/-- Path(s).stem as used at line 248 to key existing gamelist entries. -/
def pathStem (s : String) : String :=
  String.mk (stemChars (basenameChars s.toList))

/-- An identifier that survives the "./" ++ id ++ ".zip" path round trip:
nonempty and free of path separators. -/
def validId (id : String) : Prop := id ≠ "" ∧ '/' ∉ id.toList

/-- takeWhile over an append whose first part satisfies the predicate. -/
theorem takeWhile_append_of_all {α : Type} {p : α → Bool}
    (l1 l2 : List α) (h : ∀ c ∈ l1, p c = true) :
    (l1 ++ l2).takeWhile p = l1 ++ l2.takeWhile p := by
  induction l1 with
  | nil => simp
  | cons a l ih =>
    have ha := h a (by simp)
    simp only [List.cons_append, List.takeWhile_cons, ha, if_true]
    rw [ih (fun c hc => h c (by simp [hc]))]

/-- The stem of a generated path "./id.zip" is the identifier itself. -/
theorem pathStem_valid (id : String) (h : validId id) :
    pathStem ("./" ++ id ++ ".zip") = id := by
  obtain ⟨hne, hslash⟩ := h
  have hdata : ("./" ++ id ++ ".zip").toList
      = '.' :: '/' :: (id.toList ++ ['.', 'z', 'i', 'p']) := by
    show ("./" ++ id ++ ".zip").data = _
    rw [String.data_append, String.data_append]
    rfl
  have hbase : basenameChars ("./" ++ id ++ ".zip").toList
      = id.toList ++ ['.', 'z', 'i', 'p'] := by
    rw [hdata]
    unfold basenameChars
    have hrev : ('.' :: '/' :: (id.toList ++ ['.', 'z', 'i', 'p'])).reverse
        = (['p', 'i', 'z', '.'] ++ id.toList.reverse) ++ ['/', '.'] := by
      simp [List.reverse_append]
    rw [hrev]
    rw [takeWhile_append_of_all (['p', 'i', 'z', '.'] ++ id.toList.reverse)
      ['/', '.'] ?_]
    · simp [List.takeWhile_cons, List.reverse_append]
    · intro c hc
      rcases List.mem_append.mp hc with hc1 | hc2
      · fin_cases hc1 <;> decide
      · have : c ∈ id.toList := List.mem_reverse.mp hc2
        have : c ≠ '/' := fun he => hslash (he ▸ this)
        simpa using this
  have hdne : id.toList ≠ [] := by
    intro h0
    apply hne
    cases id with
    | mk data =>
      have h3 : data = [] := h0
      rw [h3]
  have hmain : stemChars (id.toList ++ ['.', 'z', 'i', 'p']) = id.toList := by
    unfold stemChars
    have hrev : (id.toList ++ ['.', 'z', 'i', 'p']).reverse
        = 'p' :: 'i' :: 'z' :: '.' :: id.toList.reverse := by
      simp
    rw [hrev]
    have hstep : ('p' :: 'i' :: 'z' :: '.' :: id.toList.reverse).dropWhile
        (fun c => c != '.') = '.' :: id.toList.reverse := by
      simp [List.dropWhile_cons]
    rw [hstep]
    cases hrl : id.toList.reverse with
    | nil => exact absurd (by simpa using congrArg List.reverse hrl) hdne
    | cons a as =>
      have hback : (a :: as).reverse = id.toList := by
        have := congrArg List.reverse hrl
        simpa using this.symm
      simp [hback]
  unfold pathStem
  rw [hbase, hmain]
  cases id
  rfl

/-- Python dict insertion over an insertion-ordered association list:
overwriting an existing key keeps its position, a new key appends. -/
def insertD {α : Type} : List (String × α) → String → α → List (String × α)
  | [], k, v => [(k, v)]
  | (k', v') :: rest, k, v =>
    if k' = k then (k, v) :: rest else (k', v') :: insertD rest k v

/-- The dictionary key load_existing_gamelist derives from one game
element (lines 243-249): present only when the path child exists and its
text is truthy, and then equal to the stem of the path text. -/
def keyOfEntry (e : Entry) : Option String :=
  match e.path with
  | some (some t) => if t = "" then none else some (pathStem t)
  | _ => none

/-- load_existing_gamelist (lines 231-255): empty when merging is
disabled; otherwise a dictionary keyed by the stem of each entry's path
text, in document order. -/
def loadExistingGamelist (no_merge : Bool) (fileEntries : List Entry) :
    List (String × Entry) :=
  if no_merge then [] else
  fileEntries.foldl (fun d e =>
    match keyOfEntry e with
    | some k => insertD d k e
    | none => d) []

/-- Insert into an ascending list, mirroring Python's ascending sort. -/
def insertSorted (x : String) : List String → List String
  | [] => [x]
  | y :: ys =>
    match compare x y with
    | .gt => y :: insertSorted x ys
    | _ => x :: y :: ys

/-- sorted(merged_games.keys()) at line 400: ascending insertion sort. -/
def sortStrings (l : List String) : List String := l.foldr insertSorted []

theorem insertSorted_perm (x : String) (l : List String) :
    (insertSorted x l).Perm (x :: l) := by
  induction l with
  | nil => exact List.Perm.refl _
  | cons y ys ih =>
    unfold insertSorted
    cases compare x y with
    | gt => exact ((ih.cons y).trans (List.Perm.swap x y ys))
    | lt => exact List.Perm.refl _
    | eq => exact List.Perm.refl _

theorem sortStrings_perm (l : List String) : (sortStrings l).Perm l := by
  induction l with
  | nil => exact List.Perm.refl _
  | cons a l ih =>
    exact (insertSorted_perm a (sortStrings l)).trans (ih.cons a)

/-- The identifier a game element stands for, read off its path text the
same way load_existing_gamelist keys entries. -/
def entryKey (e : Entry) : String :=
  match e.path with
  | some (some t) => pathStem t
  | _ => ""

/-- generate_gamelist (lines 391-433), up to serialization: one generated
entry per unified identifier in sorted order, created against the
existing record for that identifier when one exists, followed by every
existing record whose identifier was not processed (unless merging is
disabled). -/
def generateGamelist (no_merge : Bool) (merged : List (String × GameData))
    (snap_map marquee_map : String → Bool) (fileEntries : List Entry) :
    List Entry :=
  let existing := loadExistingGamelist no_merge fileEntries
  let ids := sortStrings (merged.map Prod.fst)
  let gen := ids.filterMap (fun id =>
    (merged.lookup id).map (fun d =>
      create_gamelist_entry id d (existing.lookup id) snap_map marquee_map))
  let orphans := if no_merge then [] else
    existing.filterMap (fun p => if p.1 ∈ ids then none else some p.2)
  gen ++ orphans

/-- Unfolding of generateGamelist when merging is disabled: the existing
gamelist is not loaded (load_existing_gamelist returns {} under no_merge)
and no orphans are appended. -/
theorem generateGamelist_no_merge (merged : List (String × GameData))
    (snap_map marquee_map : String → Bool) (raw : List Entry) :
    generateGamelist true merged snap_map marquee_map raw
      = (sortStrings (merged.map Prod.fst)).filterMap (fun id =>
          (merged.lookup id).map (fun d =>
            create_gamelist_entry id d none snap_map marquee_map)) := by
  simp [generateGamelist, loadExistingGamelist]

/-- Unfolding of generateGamelist when merging is enabled. -/
theorem generateGamelist_merge (merged : List (String × GameData))
    (snap_map marquee_map : String → Bool) (raw : List Entry) :
    generateGamelist false merged snap_map marquee_map raw
      = (sortStrings (merged.map Prod.fst)).filterMap (fun id =>
          (merged.lookup id).map (fun d =>
            create_gamelist_entry id d
              ((loadExistingGamelist false raw).lookup id)
              snap_map marquee_map))
        ++ (loadExistingGamelist false raw).filterMap (fun p =>
            if p.1 ∈ sortStrings (merged.map Prod.fst) then none
            else some p.2) := by
  simp [generateGamelist]

/-! ### C5 -/

/-- C5: orphan preservation.  (i) With merging enabled, every record of
the loaded existing gamelist whose identifier is absent from the unified
set is re-appended to the output unchanged.  (ii) With the merge-disable
flag set, the output consists solely of entries generated for unified
identifiers, so (provided unified identifiers survive the path round
trip) no output element carries the orphan identifier. -/
theorem c5_orphans (merged : List (String × GameData))
    (snap_map marquee_map : String → Bool) (raw : List Entry) :
    (∀ id e, (id, e) ∈ loadExistingGamelist false raw →
      (∀ p ∈ merged, p.1 ≠ id) →
      e ∈ generateGamelist false merged snap_map marquee_map raw) ∧
    (∀ oid, (∀ p ∈ merged, p.1 ≠ oid) →
      (∀ p ∈ merged, validId p.1) →
      ∀ e ∈ generateGamelist true merged snap_map marquee_map raw,
        entryKey e ≠ oid) := by
  constructor
  · intro id e hmem hno
    have hnid : id ∉ sortStrings (merged.map Prod.fst) := by
      intro hin
      have hm : id ∈ merged.map Prod.fst :=
        ((sortStrings_perm _).mem_iff).mp hin
      obtain ⟨p, hp, hpe⟩ := List.mem_map.mp hm
      exact hno p hp hpe
    rw [generateGamelist_merge]
    apply List.mem_append_right
    exact List.mem_filterMap.mpr ⟨(id, e), hmem, by simp [hnid]⟩
  · intro oid hno hval e he
    rw [generateGamelist_no_merge] at he
    obtain ⟨i, hi, hif⟩ := List.mem_filterMap.mp he
    obtain ⟨d, hd, hde⟩ := Option.map_eq_some'.mp hif
    have hmm : i ∈ merged.map Prod.fst :=
      ((sortStrings_perm _).mem_iff).mp hi
    obtain ⟨p, hp, hpe⟩ := List.mem_map.mp hmm
    have hvi : validId i := hpe ▸ hval p hp
    have hkey : entryKey e = i := by
      rw [← hde]
      simp only [entryKey, create_gamelist_entry, fallbackField, getE]
      exact pathStem_valid i hvi
    rw [hkey]
    intro hcon
    exact hno p hp (hpe.trans hcon)

/-- A hand-added existing record for the C5 witness, with identifier
"orph" absent from the unified set. -/
def c5orphan : Entry :=
  { path := some (some "./orph.zip")
    name := some (some "Hand Added Game")
    desc := none
    image := none
    thumbnail := none
    marquee := none
    video := none
    rating := none
    releasedate := none
    developer := none
    publisher := none
    genre := none
    players := none
    hidden := none }

/-- Catalog data for the C5 witness. -/
def c5data : GameData :=
  { description := "Pac-Man"
    year := "1980"
    manufacturer := "Namco"
    isbios := false
    ismechanical := false
    isdevice := false
    players := none
    driver_status := none
    driver_emulation := none }

/-- The unified set for the C5 witness: just "pacman". -/
def c5merged : List (String × GameData) := [("pacman", c5data)]

/-- C5 witness: the theorem applied at a concrete input — the orphan
"orph" is loaded from the existing gamelist, re-emitted unchanged when
merging, and with merging disabled the only generated entry does not
carry the orphan's identifier. -/
theorem c5_witness :
    ("orph", c5orphan) ∈ loadExistingGamelist false [c5orphan] ∧
    c5orphan ∈ generateGamelist false c5merged
      (fun _ => false) (fun _ => false) [c5orphan] ∧
    entryKey (create_gamelist_entry "pacman" c5data none
      (fun _ => false) (fun _ => false)) ≠ "orph" := by
  refine ⟨by decide, ?_, ?_⟩
  · exact (c5_orphans c5merged (fun _ => false) (fun _ => false)
      [c5orphan]).1 "orph" c5orphan (by decide) (by decide)
  · exact (c5_orphans c5merged (fun _ => false) (fun _ => false)
      [c5orphan]).2 "orph" (by decide)
      (by
        intro p hp
        have hpe : p = ("pacman", c5data) := by simpa [c5merged] using hp
        subst hpe
        exact ⟨by decide, by decide⟩)
      (create_gamelist_entry "pacman" c5data none
        (fun _ => false) (fun _ => false)) (by decide)

/-! ### Association-list facts used for the idempotence claim -/

theorem insertD_mem {α : Type} {d : List (String × α)} {k : String} {v : α}
    {p : String × α} (h : p ∈ insertD d k v) : p ∈ d ∨ p = (k, v) := by
  induction d with
  | nil => exact Or.inr (by simpa [insertD] using h)
  | cons q d ih =>
    unfold insertD at h
    by_cases hq : q.1 = k
    · rw [if_pos hq] at h
      rcases List.mem_cons.mp h with h1 | h2
      · exact Or.inr h1
      · exact Or.inl (List.mem_cons_of_mem q h2)
    · rw [if_neg hq] at h
      rcases List.mem_cons.mp h with h1 | h2
      · exact Or.inl (h1 ▸ List.mem_cons_self q d)
      · rcases ih h2 with h3 | h4
        · exact Or.inl (List.mem_cons_of_mem q h3)
        · exact Or.inr h4

theorem mem_keys_insertD {α : Type} {d : List (String × α)} {k : String}
    {v : α} {k' : String} :
    k' ∈ (insertD d k v).map Prod.fst ↔ k' ∈ d.map Prod.fst ∨ k' = k := by
  induction d with
  | nil => simp [insertD, eq_comm]
  | cons q d ih =>
    unfold insertD
    by_cases hq : q.1 = k
    · rw [if_pos hq]
      subst hq
      simp [eq_comm]
      tauto
    · rw [if_neg hq]
      simp only [List.map_cons, List.mem_cons, ih]
      tauto

theorem keys_insertD_nodup {α : Type} {d : List (String × α)} {k : String}
    {v : α} (h : (d.map Prod.fst).Nodup) :
    ((insertD d k v).map Prod.fst).Nodup := by
  induction d with
  | nil => simp [insertD]
  | cons q d ih =>
    unfold insertD
    simp only [List.map_cons, List.nodup_cons] at h
    by_cases hq : q.1 = k
    · rw [if_pos hq]
      subst hq
      simpa using h
    · rw [if_neg hq]
      simp only [List.map_cons, List.nodup_cons]
      refine ⟨?_, ih h.2⟩
      intro hc
      rcases mem_keys_insertD.mp hc with h1 | h2
      · exact h.1 h1
      · exact hq h2

theorem insertD_of_not_mem {α : Type} {d : List (String × α)} {k : String}
    {v : α} (h : k ∉ d.map Prod.fst) : insertD d k v = d ++ [(k, v)] := by
  induction d with
  | nil => rfl
  | cons q d ih =>
    unfold insertD
    have hq : q.1 ≠ k := by
      intro he
      exact h (by simp [he])
    rw [if_neg hq]
    rw [ih (fun hc => h (by simp [hc]))]
    simp

theorem lookup_mem {α : Type} {l : List (String × α)} {k : String} {v : α}
    (h : l.lookup k = some v) : (k, v) ∈ l := by
  induction l with
  | nil => simp at h
  | cons q l ih =>
    rw [show q = (q.1, q.2) from rfl, List.lookup_cons] at h
    by_cases hq : k = q.1
    · simp only [hq, beq_self_eq_true] at h
      have hv2 : q.2 = v := by simpa using h
      refine List.mem_cons.mpr (Or.inl ?_)
      rw [hq, ← hv2]
    · have hb : (k == q.1) = false := beq_eq_false_iff_ne.mpr hq
      simp only [hb] at h
      exact List.mem_cons_of_mem q (ih h)

theorem nodup_keys_lookup_eq {α : Type} {l : List (String × α)} {k : String}
    {v : α} (hnd : (l.map Prod.fst).Nodup) (h : (k, v) ∈ l) :
    l.lookup k = some v := by
  induction l with
  | nil => simp at h
  | cons q l ih =>
    simp only [List.map_cons, List.nodup_cons] at hnd
    rcases List.mem_cons.mp h with h1 | h2
    · rw [← h1, List.lookup_cons]
      simp
    · have hk : k ≠ q.1 := by
        intro he
        exact hnd.1 (he ▸ List.mem_map.mpr ⟨(k, v), h2, rfl⟩)
      rw [show q = (q.1, q.2) from rfl, List.lookup_cons]
      have hb : (k == q.1) = false := beq_eq_false_iff_ne.mpr hk
      simp only [hb]
      exact ih hnd.2 h2

theorem lookup_append_left {α : Type} {l1 l2 : List (String × α)}
    {k : String} (h : (l1.lookup k).isSome) :
    (l1 ++ l2).lookup k = l1.lookup k := by
  induction l1 with
  | nil => simp at h
  | cons q l ih =>
    rw [show q = (q.1, q.2) from rfl] at *
    rw [List.cons_append, List.lookup_cons, List.lookup_cons]
    by_cases hq : k = q.1
    · simp [hq]
    · have hb : (k == q.1) = false := beq_eq_false_iff_ne.mpr hq
      simp only [hb]
      apply ih
      rw [List.lookup_cons] at h
      simpa [hb] using h

theorem filterMap_map_snd {α β : Type} (l : List α) (h : α → Option β) :
    (l.filterMap (fun a => (h a).map (fun b => (a, b)))).map Prod.snd
      = l.filterMap h := by
  rw [List.map_filterMap]
  apply List.filterMap_congr
  intro a _
  cases h a <;> rfl

theorem filterMap_pair_keys_sublist {α β : Type} (l : List α)
    (h : α → Option β) :
    ((l.filterMap (fun a => (h a).map (fun b => (a, b)))).map
      Prod.fst).Sublist l := by
  induction l with
  | nil => simp
  | cons a l ih =>
    simp only [List.filterMap_cons]
    cases h a with
    | none => exact ih.cons a
    | some b => simpa using ih.cons₂ a

theorem mem_filterMap_pair {α β : Type} {l : List α} {h : α → Option β}
    {a : α} {b : β} :
    (a, b) ∈ l.filterMap (fun x => (h x).map (fun y => (x, y))) ↔
      a ∈ l ∧ h a = some b := by
  constructor
  · intro hm
    obtain ⟨x, hx, hxe⟩ := List.mem_filterMap.mp hm
    obtain ⟨y, hy, hye⟩ := Option.map_eq_some'.mp hxe
    injection hye with h1 h2
    subst h1
    subst h2
    exact ⟨hx, hy⟩
  · intro hab
    refine List.mem_filterMap.mpr ⟨a, hab.1, ?_⟩
    rw [hab.2]
    rfl

/-- One step of the load_existing_gamelist fold (lines 243-249). -/
def loadStep (d : List (String × Entry)) (e : Entry) :
    List (String × Entry) :=
  match keyOfEntry e with
  | some k => insertD d k e
  | none => d

theorem loadExisting_eq_foldl (raw : List Entry) :
    loadExistingGamelist false raw = raw.foldl loadStep [] := rfl

theorem loadStep_inv (d : List (String × Entry)) (e : Entry)
    (hd : ∀ p ∈ d, keyOfEntry p.2 = some p.1) :
    ∀ p ∈ loadStep d e, keyOfEntry p.2 = some p.1 := by
  intro p hp
  unfold loadStep at hp
  cases hk : keyOfEntry e with
  | none =>
    rw [hk] at hp
    exact hd p hp
  | some k =>
    rw [hk] at hp
    rcases insertD_mem hp with h1 | h2
    · exact hd p h1
    · rw [h2]
      exact hk

theorem loadFold_shape (raw : List Entry) :
    ∀ (d : List (String × Entry)),
    (∀ p ∈ d, keyOfEntry p.2 = some p.1) →
    ∀ p ∈ raw.foldl loadStep d, keyOfEntry p.2 = some p.1 := by
  induction raw with
  | nil =>
    intro d hd
    simpa using hd
  | cons e raw ih =>
    intro d hd
    simp only [List.foldl_cons]
    exact ih (loadStep d e) (loadStep_inv d e hd)

/-- Every pair the gamelist loader produces is keyed by the stem of its
entry's truthy path text. -/
theorem loadExisting_shape (raw : List Entry) :
    ∀ p ∈ loadExistingGamelist false raw, keyOfEntry p.2 = some p.1 := by
  rw [loadExisting_eq_foldl]
  exact loadFold_shape raw [] (by simp)

theorem loadStep_keys_nodup (d : List (String × Entry)) (e : Entry)
    (h : (d.map Prod.fst).Nodup) : ((loadStep d e).map Prod.fst).Nodup := by
  unfold loadStep
  cases hk : keyOfEntry e with
  | none => exact h
  | some k => exact keys_insertD_nodup h

theorem loadFold_keys_nodup (raw : List Entry) :
    ∀ (d : List (String × Entry)), (d.map Prod.fst).Nodup →
    ((raw.foldl loadStep d).map Prod.fst).Nodup := by
  induction raw with
  | nil =>
    intro d hd
    simpa using hd
  | cons e raw ih =>
    intro d hd
    simp only [List.foldl_cons]
    exact ih (loadStep d e) (loadStep_keys_nodup d e hd)

/-- The loaded gamelist dictionary has pairwise-distinct keys. -/
theorem loadExisting_keys_nodup (raw : List Entry) :
    ((loadExistingGamelist false raw).map Prod.fst).Nodup := by
  rw [loadExisting_eq_foldl]
  exact loadFold_keys_nodup raw [] (by simp)

theorem loadFold_of_keyed (ps : List (String × Entry)) :
    ∀ (d : List (String × Entry)),
    (∀ p ∈ ps, keyOfEntry p.2 = some p.1) →
    (d.map Prod.fst ++ ps.map Prod.fst).Nodup →
    (ps.map Prod.snd).foldl loadStep d = d ++ ps := by
  induction ps with
  | nil =>
    intro d _ _
    simp
  | cons p ps ih =>
    intro d hk hnd
    simp only [List.map_cons, List.foldl_cons]
    have hkp : keyOfEntry p.2 = some p.1 := hk p (by simp)
    have hstep : loadStep d p.2 = d ++ [(p.1, p.2)] := by
      unfold loadStep
      rw [hkp]
      apply insertD_of_not_mem
      intro hc
      simp only [List.map_cons] at hnd
      obtain ⟨h1, h2, h3⟩ := List.nodup_append.mp hnd
      exact h3 hc (by simp)
    rw [hstep]
    have hd2 : ((d ++ [(p.1, p.2)]).map Prod.fst ++ ps.map Prod.fst).Nodup := by
      simpa [List.append_assoc] using hnd
    rw [ih (d ++ [(p.1, p.2)]) (fun q hq => hk q (by simp [hq])) hd2]
    simp

/-- Loading a gamelist whose entries are keyed consistently (every entry
carries a truthy path whose stem is its key, keys pairwise distinct)
reproduces exactly the keyed pair list. -/
theorem loadExisting_of_keyed (ps : List (String × Entry))
    (hk : ∀ p ∈ ps, keyOfEntry p.2 = some p.1)
    (hnd : (ps.map Prod.fst).Nodup) :
    loadExistingGamelist false (ps.map Prod.snd) = ps := by
  rw [loadExisting_eq_foldl]
  have h := loadFold_of_keyed ps [] hk (by simpa using hnd)
  simpa using h

/-! ### Round-trip facts for the idempotence claim -/

theorem keyOfEntry_reparse (e : Entry) :
    keyOfEntry (reparseEntry e) = keyOfEntry e := by
  unfold keyOfEntry reparseEntry
  cases hp : e.path with
  | none => simp [hp]
  | some t =>
    cases t with
    | none => simp [hp, textNorm]
    | some s =>
      by_cases hs : s = "" <;> simp [hp, textNorm, hs]

theorem entryKey_of_keyOf {e : Entry} {k : String}
    (h : keyOfEntry e = some k) : entryKey e = k := by
  unfold keyOfEntry at h
  unfold entryKey
  cases hp : e.path with
  | none =>
    rw [hp] at h
    simp at h
  | some t =>
    cases t with
    | none =>
      rw [hp] at h
      simp at h
    | some s =>
      rw [hp] at h
      have h' : (if s = "" then none else some (pathStem s)) = some k := h
      by_cases hs : s = ""
      · rw [if_pos hs] at h'
        simp at h'
      · rw [if_neg hs] at h'
        show pathStem s = k
        simpa using h'

theorem serializeField_textNorm (tag : String) (f : Option (Option String)) :
    serializeField tag (f.map textNorm) = serializeField tag f := by
  match f with
  | none => rfl
  | some none => rfl
  | some (some s) =>
    by_cases hs : s = "" <;> simp [serializeField, textNorm, hs]

theorem serializeEntry_reparse (e : Entry) :
    serializeEntry (reparseEntry e) = serializeEntry e := by
  simp [serializeEntry, reparseEntry, serializeField_textNorm]

theorem serializeGamelist_reparse (es : List Entry) :
    serializeGamelist (es.map reparseEntry) = serializeGamelist es := by
  cases es with
  | nil => rfl
  | cons e es =>
    have hmap : es.map (serializeEntry ∘ reparseEntry)
        = es.map serializeEntry :=
      List.map_congr_left (fun a _ => serializeEntry_reparse a)
    simp [serializeGamelist, serializeEntry_reparse, hmap]

theorem genPath_toList (id : String) :
    ("./" ++ id ++ ".zip").toList
      = '.' :: '/' :: (id.toList ++ ['.', 'z', 'i', 'p']) := by
  show ("./" ++ id ++ ".zip").data = _
  rw [String.data_append, String.data_append]
  rfl

theorem genPath_ne (id : String) : ("./" ++ id ++ ".zip") ≠ "" := by
  intro h0
  have h1 : ('.' :: '/' :: (id.toList ++ ['.', 'z', 'i', 'p']))
      = ([] : List Char) := by
    rw [← genPath_toList, h0]
    rfl
  exact absurd h1 (by simp)

/-- The key the loader would derive from a generated entry is the
identifier it was generated for, provided the identifier is valid and any
existing record it was generated against was itself keyed by that
identifier. -/
theorem keyOfEntry_create (id : String) (d : GameData) (ex : Option Entry)
    (s m : String → Bool) (hv : validId id)
    (hex : ∀ e0, ex = some e0 → keyOfEntry e0 = some id) :
    keyOfEntry (create_gamelist_entry id d ex s m) = some id := by
  cases ex with
  | none =>
    have hpath : (create_gamelist_entry id d none s m).path
        = some (some ("./" ++ id ++ ".zip")) := rfl
    unfold keyOfEntry
    rw [hpath]
    show (if ("./" ++ id ++ ".zip") = "" then none
      else some (pathStem ("./" ++ id ++ ".zip"))) = some id
    rw [if_neg (genPath_ne id), pathStem_valid id hv]
  | some e0 =>
    have h0 := hex e0 rfl
    unfold keyOfEntry at h0
    cases hp : e0.path with
    | none =>
      rw [hp] at h0
      simp at h0
    | some t =>
      cases t with
      | none =>
        rw [hp] at h0
        simp at h0
      | some t0 =>
        rw [hp] at h0
        have h0' : (if t0 = "" then none else some (pathStem t0))
            = some id := h0
        by_cases ht : t0 = ""
        · rw [if_pos ht] at h0'
          simp at h0'
        · rw [if_neg ht] at h0'
          have hpath : (create_gamelist_entry id d (some e0) s m).path
              = some (some t0) := by
            simp [create_gamelist_entry, fallbackField, getE, hp]
          unfold keyOfEntry
          rw [hpath]
          show (if t0 = "" then none else some (pathStem t0)) = some id
          rw [if_neg ht]
          exact h0'

/-- Re-generating an entry against the parsed form of its own previous
output reproduces that parsed form: every standard element copies the
existing (normalized) text, and the hidden element is recomputed from the
same catalog data. -/
theorem create_reparse_create (id : String) (d : GameData)
    (ex : Option Entry) (s m : String → Bool) :
    create_gamelist_entry id d
        (some (reparseEntry (create_gamelist_entry id d ex s m))) s m
      = reparseEntry (create_gamelist_entry id d ex s m) := by
  cases hds : d.driver_status with
  | none =>
    simp [create_gamelist_entry, reparseEntry, fallbackField, getE, hds]
  | some st =>
    by_cases h1 : st = "preliminary" <;> by_cases h2 : st = "imperfect" <;>
      simp [create_gamelist_entry, reparseEntry, fallbackField, getE, hds,
        h1, h2, textNorm]

/-! ### Pair view of one generation run -/

/-- The generated entries of one run, paired with the identifiers they
were generated for. -/
def genPairs (merged : List (String × GameData))
    (snap_map marquee_map : String → Bool) (raw : List Entry) :
    List (String × Entry) :=
  (sortStrings (merged.map Prod.fst)).filterMap (fun i =>
    ((merged.lookup i).map (fun d =>
      create_gamelist_entry i d ((loadExistingGamelist false raw).lookup i)
        snap_map marquee_map)).map (fun e => (i, e)))

/-- The re-appended orphan entries of one run, with their dictionary
keys. -/
def orphPairs (merged : List (String × GameData)) (raw : List Entry) :
    List (String × Entry) :=
  (loadExistingGamelist false raw).filterMap (fun p =>
    if p.1 ∈ sortStrings (merged.map Prod.fst) then none else some p)

/-- All entries of one merging run, keyed. -/
def outPairs (merged : List (String × GameData))
    (snap_map marquee_map : String → Bool) (raw : List Entry) :
    List (String × Entry) :=
  genPairs merged snap_map marquee_map raw ++ orphPairs merged raw

theorem genPairs_mem_key {merged : List (String × GameData)}
    {snap_map marquee_map : String → Bool} {raw : List Entry}
    {p : String × Entry}
    (hp : p ∈ genPairs merged snap_map marquee_map raw) :
    p.1 ∈ sortStrings (merged.map Prod.fst) := by
  obtain ⟨i, hi, hie⟩ := List.mem_filterMap.mp hp
  obtain ⟨e, he, hee⟩ := Option.map_eq_some'.mp hie
  rw [← hee]
  exact hi

theorem orphPairs_mem {merged : List (String × GameData)} {raw : List Entry}
    {p : String × Entry} (hp : p ∈ orphPairs merged raw) :
    p ∈ loadExistingGamelist false raw ∧
      p.1 ∉ sortStrings (merged.map Prod.fst) := by
  obtain ⟨q, hq, hqe⟩ := List.mem_filterMap.mp hp
  by_cases hqi : q.1 ∈ sortStrings (merged.map Prod.fst)
  · rw [if_pos hqi] at hqe
    exact absurd hqe (by simp)
  · rw [if_neg hqi] at hqe
    injection hqe with h1
    subst h1
    exact ⟨hq, hqi⟩

/-- One merging run is exactly the entry components of its pair view. -/
theorem generate_pairs (merged : List (String × GameData))
    (snap_map marquee_map : String → Bool) (raw : List Entry) :
    generateGamelist false merged snap_map marquee_map raw
      = (outPairs merged snap_map marquee_map raw).map Prod.snd := by
  rw [generateGamelist_merge]
  unfold outPairs
  rw [List.map_append]
  congr 1
  · rw [(filterMap_map_snd _ _).symm]
    rfl
  · unfold orphPairs
    rw [List.map_filterMap]
    apply List.filterMap_congr
    intro p _
    by_cases hpi : p.1 ∈ sortStrings (merged.map Prod.fst) <;> simp [hpi]

/-- Every pair of a run is keyed by the stem of its entry's path. -/
theorem outPairs_shape (merged : List (String × GameData))
    (snap_map marquee_map : String → Bool) (raw : List Entry)
    (hval : ∀ p ∈ merged, validId p.1) :
    ∀ p ∈ outPairs merged snap_map marquee_map raw,
      keyOfEntry p.2 = some p.1 := by
  intro p hp
  rcases List.mem_append.mp hp with hpg | hpo
  · obtain ⟨i, hi, hie⟩ := List.mem_filterMap.mp hpg
    obtain ⟨e, he, hee⟩ := Option.map_eq_some'.mp hie
    obtain ⟨d, hd, hde⟩ := Option.map_eq_some'.mp he
    rw [← hee]
    show keyOfEntry e = some i
    rw [← hde]
    apply keyOfEntry_create
    · obtain ⟨q, hq, hqe⟩ :=
        List.mem_map.mp (((sortStrings_perm _).mem_iff).mp hi)
      exact hqe ▸ hval q hq
    · intro e0 he0
      exact loadExisting_shape raw (i, e0) (lookup_mem he0)
  · obtain ⟨hq, _⟩ := orphPairs_mem hpo
    exact loadExisting_shape raw p hq

theorem filterMap_if_sublist {α : Type} (l : List α) (c : α → Prop)
    [DecidablePred c] :
    (l.filterMap (fun a => if c a then none else some a)).Sublist l := by
  induction l with
  | nil => simp
  | cons a l ih =>
    simp only [List.filterMap_cons]
    by_cases hc : c a
    · rw [if_pos hc]
      exact ih.cons a
    · rw [if_neg hc]
      exact ih.cons₂ a

/-- The keys of a run's pair view are pairwise distinct. -/
theorem outPairs_keys_nodup (merged : List (String × GameData))
    (snap_map marquee_map : String → Bool) (raw : List Entry)
    (hnd : (merged.map Prod.fst).Nodup) :
    ((outPairs merged snap_map marquee_map raw).map Prod.fst).Nodup := by
  have hids_nodup : (sortStrings (merged.map Prod.fst)).Nodup :=
    ((sortStrings_perm _).nodup_iff).mpr hnd
  unfold outPairs
  rw [List.map_append]
  apply List.Nodup.append
  · exact (filterMap_pair_keys_sublist _ _).nodup hids_nodup
  · have hsub : (orphPairs merged raw).Sublist
        (loadExistingGamelist false raw) := by
      unfold orphPairs
      exact filterMap_if_sublist _ _
    exact ((hsub.map Prod.fst).nodup (loadExisting_keys_nodup raw))
  · intro k hk1 hk2
    obtain ⟨p, hp, hpe⟩ := List.mem_map.mp hk1
    obtain ⟨q, hq, hqe⟩ := List.mem_map.mp hk2
    have h1 : k ∈ sortStrings (merged.map Prod.fst) :=
      hpe ▸ genPairs_mem_key hp
    have h2 : k ∉ sortStrings (merged.map Prod.fst) :=
      hqe ▸ (orphPairs_mem hq).2
    exact h2 h1

/-- No identifier appears in more than one game element of a merging
run's output. -/
theorem generate_keys_nodup (merged : List (String × GameData))
    (snap_map marquee_map : String → Bool) (raw : List Entry)
    (hnd : (merged.map Prod.fst).Nodup)
    (hval : ∀ p ∈ merged, validId p.1) :
    ((generateGamelist false merged snap_map marquee_map raw).map
      entryKey).Nodup := by
  rw [generate_pairs, List.map_map]
  have hpt : (outPairs merged snap_map marquee_map raw).map
      (entryKey ∘ Prod.snd)
      = (outPairs merged snap_map marquee_map raw).map Prod.fst :=
    List.map_congr_left (fun p hp =>
      entryKey_of_keyOf (outPairs_shape merged snap_map marquee_map raw
        hval p hp))
  rw [hpt]
  exact outPairs_keys_nodup merged snap_map marquee_map raw hnd

/-- Re-running generation against the parsed form of its own output
reproduces that parsed output exactly. -/
theorem generate_reparse_fixed (merged : List (String × GameData))
    (snap_map marquee_map : String → Bool) (raw : List Entry)
    (hnd : (merged.map Prod.fst).Nodup)
    (hval : ∀ p ∈ merged, validId p.1) :
    generateGamelist false merged snap_map marquee_map
        ((generateGamelist false merged snap_map marquee_map raw).map
          reparseEntry)
      = (generateGamelist false merged snap_map marquee_map raw).map
          reparseEntry := by
  have hshape := outPairs_shape merged snap_map marquee_map raw hval
  have hkeys := outPairs_keys_nodup merged snap_map marquee_map raw hnd
  have hraw2 : (generateGamelist false merged snap_map marquee_map raw).map
      reparseEntry
      = ((outPairs merged snap_map marquee_map raw).map
          (fun p => (p.1, reparseEntry p.2))).map Prod.snd := by
    rw [generate_pairs, List.map_map, List.map_map]
    rfl
  have hR2keys : (((outPairs merged snap_map marquee_map raw).map
      (fun p => (p.1, reparseEntry p.2))).map Prod.fst).Nodup := by
    rw [List.map_map]
    exact hkeys
  have hex2 : loadExistingGamelist false
      ((generateGamelist false merged snap_map marquee_map raw).map
        reparseEntry)
      = (outPairs merged snap_map marquee_map raw).map
          (fun p => (p.1, reparseEntry p.2)) := by
    rw [hraw2]
    apply loadExisting_of_keyed
    · intro p hp
      obtain ⟨q, hq, hqe⟩ := List.mem_map.mp hp
      rw [← hqe]
      show keyOfEntry (reparseEntry q.2) = some q.1
      rw [keyOfEntry_reparse]
      exact hshape q hq
    · exact hR2keys
  rw [generateGamelist_merge, hex2, hraw2]
  rw [List.map_map]
  show _ = (outPairs merged snap_map marquee_map raw).map
    (fun p => reparseEntry p.2)
  conv_rhs => rw [outPairs, List.map_append]
  congr 1
  · -- the generated entries of run 2 are the reparsed run-1 entries
    unfold genPairs
    rw [List.map_filterMap]
    apply List.filterMap_congr
    intro i hi
    cases hli : merged.lookup i with
    | none => rfl
    | some d =>
      have hmem : (i, create_gamelist_entry i d
          ((loadExistingGamelist false raw).lookup i)
          snap_map marquee_map)
          ∈ outPairs merged snap_map marquee_map raw := by
        apply List.mem_append_left
        apply List.mem_filterMap.mpr
        refine ⟨i, hi, ?_⟩
        rw [hli]
        rfl
      have hmem2 : (i, reparseEntry (create_gamelist_entry i d
          ((loadExistingGamelist false raw).lookup i)
          snap_map marquee_map)) ∈ (outPairs merged snap_map marquee_map
            raw).map (fun p => (p.1, reparseEntry p.2)) :=
        List.mem_map.mpr ⟨_, hmem, rfl⟩
      have hlook : ((outPairs merged snap_map marquee_map raw).map
          (fun p => (p.1, reparseEntry p.2))).lookup i
          = some (reparseEntry (create_gamelist_entry i d
              ((loadExistingGamelist false raw).lookup i)
              snap_map marquee_map)) :=
        nodup_keys_lookup_eq hR2keys hmem2
      show some (create_gamelist_entry i d
          (((outPairs merged snap_map marquee_map raw).map
            (fun p => (p.1, reparseEntry p.2))).lookup i)
          snap_map marquee_map)
        = some (reparseEntry (create_gamelist_entry i d
            ((loadExistingGamelist false raw).lookup i)
            snap_map marquee_map))
      rw [hlook, create_reparse_create]
  · -- the orphans of run 2 are the reparsed run-1 orphans
    conv_lhs => rw [outPairs, List.map_append]
    rw [List.filterMap_append]
    have h1 : ((genPairs merged snap_map marquee_map raw).map
        (fun p => (p.1, reparseEntry p.2))).filterMap (fun p =>
          if p.1 ∈ sortStrings (merged.map Prod.fst) then none
          else some p.2) = [] := by
      rw [List.filterMap_map]
      apply List.filterMap_eq_nil_iff.mpr
      intro p hp
      have hp1 : p.1 ∈ sortStrings (merged.map Prod.fst) :=
        genPairs_mem_key hp
      show (if p.1 ∈ sortStrings (merged.map Prod.fst) then none
        else some (reparseEntry p.2)) = none
      rw [if_pos hp1]
    have h2 : ((orphPairs merged raw).map
        (fun p => (p.1, reparseEntry p.2))).filterMap (fun p =>
          if p.1 ∈ sortStrings (merged.map Prod.fst) then none
          else some p.2)
        = (orphPairs merged raw).map (fun p => reparseEntry p.2) := by
      rw [List.filterMap_map]
      have hcg : ∀ p ∈ orphPairs merged raw,
          ((fun p : String × Entry =>
            if p.1 ∈ sortStrings (merged.map Prod.fst) then none
            else some p.2) ∘ (fun p : String × Entry =>
              (p.1, reparseEntry p.2))) p
          = some (reparseEntry p.2) := by
        intro p hp
        show (if p.1 ∈ sortStrings (merged.map Prod.fst) then none
          else some (reparseEntry p.2)) = some (reparseEntry p.2)
        rw [if_neg (orphPairs_mem hp).2]
      rw [List.filterMap_congr hcg]
      rw [show (fun p : String × Entry => some (reparseEntry p.2))
        = some ∘ (fun p : String × Entry => reparseEntry p.2) from rfl]
      rw [List.filterMap_eq_map]
    rw [h1, h2]
    simp

/-! ### C4 -/

/-- Catalog data for the C4 counterexample. -/
def c4data : GameData :=
  { description := "Slash Game"
    year := "1985"
    manufacturer := "Mfg"
    isbios := false
    ismechanical := false
    isdevice := false
    players := none
    driver_status := none
    driver_emulation := none }

/-- A unified set whose identifier contains a path separator. -/
def c4merged : List (String × GameData) := [("a/b", c4data)]

set_option maxRecDepth 40000 in
/-- C4: counterexample to the claim as stated.  With the identifier
"a/b" (legal as an XML name attribute), the first run writes a game with
path "./a/b.zip"; load_existing_gamelist keys that record by the path
stem "b", so the second run finds no existing record for "a/b" and then
re-appends the loaded record as an orphan: the second run's output has
two game elements for the same identifier and is not byte-identical to
the first run's output. -/
theorem c4_counterexample :
    serializeGamelist (generateGamelist false c4merged
        (fun _ => false) (fun _ => false)
        ((generateGamelist false c4merged (fun _ => false) (fun _ => false)
          []).map reparseEntry))
      ≠ serializeGamelist (generateGamelist false c4merged
          (fun _ => false) (fun _ => false) []) ∧
    (generateGamelist false c4merged (fun _ => false) (fun _ => false)
        ((generateGamelist false c4merged (fun _ => false) (fun _ => false)
          []).map reparseEntry)).map entryKey = ["b", "b"] := by
  constructor
  · decide
  · decide

/-- C4 (amended): provided every unified identifier is nonempty and
contains no '/' (so that it survives the "./id.zip" path-stem round trip
used to key existing records), re-running generation with the existing
gamelist equal to the first run's output produces byte-identical
serialized output, and no identifier appears in more than one game
element of the second run's output. -/
theorem c4_idempotent (merged : List (String × GameData))
    (snap_map marquee_map : String → Bool) (raw : List Entry)
    (hnd : (merged.map Prod.fst).Nodup)
    (hval : ∀ p ∈ merged, validId p.1) :
    serializeGamelist (generateGamelist false merged snap_map marquee_map
        ((generateGamelist false merged snap_map marquee_map raw).map
          reparseEntry))
      = serializeGamelist
          (generateGamelist false merged snap_map marquee_map raw) ∧
    ((generateGamelist false merged snap_map marquee_map
        ((generateGamelist false merged snap_map marquee_map raw).map
          reparseEntry)).map entryKey).Nodup := by
  constructor
  · rw [generate_reparse_fixed merged snap_map marquee_map raw hnd hval]
    exact serializeGamelist_reparse _
  · exact generate_keys_nodup merged snap_map marquee_map
      ((generateGamelist false merged snap_map marquee_map raw).map
        reparseEntry) hnd hval

/-- Catalog data for the C4 witness. -/
def c4wdata : GameData :=
  { description := "Pac-Man"
    year := "1980"
    manufacturer := "Namco"
    isbios := false
    ismechanical := false
    isdevice := false
    players := some "2"
    driver_status := some "good"
    driver_emulation := some "good" }

/-- C4 witness: the amended theorem applied at a concrete one-game
catalog with a well-formed identifier. -/
theorem c4_witness :
    ((([("pacman", c4wdata)] : List (String × GameData)).map
      Prod.fst).Nodup) ∧
    serializeGamelist (generateGamelist false [("pacman", c4wdata)]
        (fun _ => true) (fun _ => false)
        ((generateGamelist false [("pacman", c4wdata)]
          (fun _ => true) (fun _ => false) []).map reparseEntry))
      = serializeGamelist (generateGamelist false [("pacman", c4wdata)]
          (fun _ => true) (fun _ => false) []) := by
  refine ⟨by decide, ?_⟩
  exact (c4_idempotent [("pacman", c4wdata)] (fun _ => true)
    (fun _ => false) [] (by decide)
    (by
      intro p hp
      have hpe : p = ("pacman", c4wdata) := by simpa using hp
      subst hpe
      exact ⟨by decide, by decide⟩)).1

/-! ## Top-level run: missing-ROM-catalog handling (C6) and filesystem
writes (C8) -/

/-- Python's str.lower(), character-wise (ASCII case folding; archive
names are ASCII). -/
def toLowerStr (s : String) : String :=
  String.mk (s.toList.map Char.toLower)

/-- Python's `needle in hay` substring test. -/
def containsSub (hay needle : String) : Bool :=
  hay.toList.tails.any (fun t => needle.toList.isPrefixOf t)

/-- The ROM-DAT selection loop of run (lines 481-487): each zip whose
lowercased name contains "rom" reassigns rom_dat_path to the result of
extract_xml_from_zip (None when extraction fails), so the last matching
zip wins; extractOk abstracts whether extraction succeeds. -/
def findRomDat (zips : List String) (extractOk : String → Bool) :
    Option String :=
  zips.foldl (fun acc z =>
    if containsSub (toLowerStr z) "rom" then
      (if extractOk z then some z else none)
    else acc) none

/-- The observable outcome of one run: whether gamelist.xml was written,
whether an error was logged, and the process exit status. -/
structure RunOutcome where
  gamelistWritten : Bool
  errorLogged : Bool
  exitCode : Nat
deriving DecidableEq

/-- run (lines 464-518), abstracted to the outcome the C6 claim is about.
When no ROM DAT is found, lines 489-491 log an error and `return` from
inside the try block: no exception is raised, the except handler's
sys.exit(1) never runs, and the process falls off main with exit status
0.  When a ROM DAT is found the run proceeds and (outside dry-run) writes
gamelist.xml, again exiting 0. -/
def runOutcome (zips : List String) (extractOk : String → Bool)
    (dry_run : Bool) : RunOutcome :=
  match findRomDat zips extractOk with
  | none => { gamelistWritten := false, errorLogged := true, exitCode := 0 }
  | some _ =>
    { gamelistWritten := !dry_run, errorLogged := false, exitCode := 0 }

/-! ### C6 -/

/-- C6: counterexample to the claim as stated.  With only a CHD archive
present, the run writes no gamelist and logs an error, but its exit
status is 0, not non-zero: the missing-ROM branch merely returns. -/
theorem c6_counterexample :
    runOutcome ["MAME 0.267 CHDs.zip"] (fun _ => true) false
      = { gamelistWritten := false, errorLogged := true, exitCode := 0 } ∧
    (runOutcome ["MAME 0.267 CHDs.zip"] (fun _ => true) false).exitCode
      = 0 := by
  constructor
  · decide
  · decide

/-- C6 (amended): whenever no archive classified into the ROM category is
found, the run writes no gamelist output and logs an error, but the
process terminates normally with exit status zero (the missing-ROM branch
returns instead of calling sys.exit). -/
theorem c6_missing_rom (zips : List String) (extractOk : String → Bool)
    (dry_run : Bool)
    (h : ∀ z ∈ zips, containsSub (toLowerStr z) "rom" = false) :
    runOutcome zips extractOk dry_run
      = { gamelistWritten := false, errorLogged := true, exitCode := 0 } := by
  have hfind : findRomDat zips extractOk = none := by
    unfold findRomDat
    have haux : ∀ (l : List String) (acc : Option String),
        (∀ z ∈ l, containsSub (toLowerStr z) "rom" = false) →
        l.foldl (fun acc z =>
          if containsSub (toLowerStr z) "rom" then
            (if extractOk z then some z else none)
          else acc) acc = acc := by
      intro l
      induction l with
      | nil =>
        intro acc _
        rfl
      | cons z l ih =>
        intro acc hl
        simp only [List.foldl_cons]
        rw [show (if containsSub (toLowerStr z) "rom" then
            (if extractOk z then some z else none) else acc) = acc from by
          rw [hl z (by simp)]
          simp]
        exact ih acc (fun w hw => hl w (by simp [hw]))
    exact haux zips none h
  unfold runOutcome
  rw [hfind]

/-- C6 witness: the amended theorem applied at a concrete input with no
ROM-classified archive. -/
theorem c6_witness :
    (∀ z ∈ ["chd.zip", "artwork.zip"], containsSub (toLowerStr z) "rom"
      = false) ∧
    runOutcome ["chd.zip", "artwork.zip"] (fun _ => true) false
      = { gamelistWritten := false, errorLogged := true, exitCode := 0 } :=
  ⟨by decide,
    c6_missing_rom ["chd.zip", "artwork.zip"] (fun _ => true) false
      (by decide)⟩

/-! ### C8 -/

/-- One kind of filesystem write the program can perform. -/
inductive FsWrite where
  | mkdtemp
  | mkdirMedia
  | mkdirScreenshots
  | mkdirCovers
  | mkdirMarquees
  | extractCatalogXml
  | copyMediaFile
  | writeGamelist
deriving DecidableEq

/-- The filesystem writes of one run, in order.  tempfile.mkdtemp at line
26 runs whenever no scratch directory is supplied; the four mkdir calls
at lines 38-41 run unconditionally in the constructor (they create the
directories whenever they do not already exist — exist_ok only suppresses
the error); zf.extract at line 64 in extract_xml_from_zip is NOT guarded
by dry_run and writes the catalog XML into the scratch directory; only
the media copies (guarded at line 190) and the gamelist write (guarded at
line 420) are skipped in dry-run mode. -/
def runFsWrites (dry_run tempProvided mediaDirsExist romZipHasXml : Bool)
    (mediaCopies : Nat) : List FsWrite :=
  (if tempProvided then [] else [FsWrite.mkdtemp])
  ++ (if mediaDirsExist then [] else
      [FsWrite.mkdirMedia, FsWrite.mkdirScreenshots, FsWrite.mkdirCovers,
        FsWrite.mkdirMarquees])
  ++ (if romZipHasXml then [FsWrite.extractCatalogXml] else [])
  ++ (if dry_run then [] else
      List.replicate mediaCopies FsWrite.copyMediaFile
        ++ [FsWrite.writeGamelist])

/-- C8: the code contradicts the claim (and its own --dry-run help text).
A dry run invoked without a scratch-directory override, against a ROM
directory whose media subdirectories do not yet exist and a catalog zip
containing an XML, still creates the temp directory, creates the four
media directories, and extracts the catalog XML — six filesystem writes,
not zero. -/
theorem c8_dry_run_writes :
    runFsWrites true false false true 0
      = [FsWrite.mkdtemp, FsWrite.mkdirMedia, FsWrite.mkdirScreenshots,
        FsWrite.mkdirCovers, FsWrite.mkdirMarquees,
        FsWrite.extractCatalogXml] ∧
    runFsWrites true false false true 0 ≠ [] := by
  constructor
  · decide
  · decide

/-! ## Artwork media classification (extract_media_from_zip) -/

/-- Python's filename.endswith(".png"). -/
def endsWithPng (filename : String) : Bool :=
  (".png".toList).isSuffixOf filename.toList

/-- `base_name.split('_')[0]`: the base name up to the first underscore. -/
def firstSegment (s : String) : String :=
  String.mk (s.toList.takeWhile (fun c => c != '_'))

/-- The media-index key one artwork-archive entry contributes, from the
artwork branch of extract_media_from_zip (lines 133-146): only .png
entries are considered, base_name is the entry's stem; an entry whose
(lowercased, full) name contains "flyer" is keyed by the first underscore
segment of its base name; otherwise one containing "marquee" is keyed by
that segment suffixed with "_marquee"; entries containing "bezel" or
"snap" are skipped, as are entries matching none of the patterns (the
if/elif chain has no else). -/
def artworkKey (filename : String) : Option String :=
  if endsWithPng filename then
    if containsSub (toLowerStr filename) "flyer" then
      some (firstSegment (pathStem filename))
    else if containsSub (toLowerStr filename) "marquee" then
      some (firstSegment (pathStem filename) ++ "_marquee")
    else none
  else none

/-- The artwork media map built over a whole archive listing, with Python
dict insertion semantics. -/
def artworkMediaMap (entries : List String) : List (String × String) :=
  entries.foldl (fun m f =>
    match artworkKey f with
    | some k => insertD m k f
    | none => m) []

theorem firstSegment_no_underscore (s : String) :
    '_' ∉ (firstSegment s).toList := by
  intro hmem
  have h1 : ('_' : Char) ∈ s.toList.takeWhile (fun c => c != '_') := hmem
  have h2 := List.mem_takeWhile_imp h1
  simp at h2

theorem artworkKey_cases {f k : String} (h : artworkKey f = some k) :
    k = firstSegment (pathStem f) ∨
      k = firstSegment (pathStem f) ++ "_marquee" := by
  unfold artworkKey at h
  by_cases h0 : endsWithPng f = true
  · rw [if_pos h0] at h
    by_cases h1 : containsSub (toLowerStr f) "flyer" = true
    · rw [if_pos h1] at h
      injection h with h2
      exact Or.inl h2.symm
    · rw [if_neg h1] at h
      by_cases h2 : containsSub (toLowerStr f) "marquee" = true
      · rw [if_pos h2] at h
        injection h with h3
        exact Or.inr h3.symm
      · rw [if_neg h2] at h
        exact absurd h (by simp)
  · rw [if_neg h0] at h
    exact absurd h (by simp)

theorem artworkMediaMap_shape (entries : List String) :
    ∀ p ∈ artworkMediaMap entries, artworkKey p.2 = some p.1 := by
  unfold artworkMediaMap
  have haux : ∀ (l : List String) (d : List (String × String)),
      (∀ p ∈ d, artworkKey p.2 = some p.1) →
      ∀ p ∈ l.foldl (fun m f =>
        match artworkKey f with
        | some k => insertD m k f
        | none => m) d, artworkKey p.2 = some p.1 := by
    intro l
    induction l with
    | nil =>
      intro d hd
      simpa using hd
    | cons f l ih =>
      intro d hd
      simp only [List.foldl_cons]
      apply ih
      intro p hp
      cases hk : artworkKey f with
      | none =>
        rw [hk] at hp
        exact hd p hp
      | some k =>
        rw [hk] at hp
        rcases insertD_mem hp with h1 | h2
        · exact hd p h1
        · rw [h2]
          exact hk
  exact haux entries [] (by simp)

/-! ### C10 -/

set_option maxRecDepth 4000 in
/-- C10: counterexample to the claim as stated.  Machine "pac_marquee"
has an underscore in its identifier, yet the artwork entry
"pac_marquee.png" — under the `<machine>.png` naming convention, that
machine's own artwork file — is classified as a marquee (substring match)
and keyed under exactly "pac_marquee", the full identifier. -/
theorem c10_counterexample :
    (artworkMediaMap ["pac_marquee.png"]).lookup "pac_marquee"
      = some "pac_marquee.png" ∧
    '_' ∈ "pac_marquee".toList := by
  constructor
  · decide
  · decide

/-- C10 (amended): a flyer-classified artwork entry is keyed by the first
underscore segment of its base filename, a marquee-classified entry by
that segment suffixed with "_marquee"; consequently, for a machine
identifier containing an underscore, the only way any artwork entry can
be keyed under the full identifier is that the identifier is an
underscore-free segment followed by "_marquee" (in particular no
flyer-keyed entry is ever keyed under it). -/
theorem c10_artwork_keys :
    (∀ f : String, endsWithPng f = true →
      containsSub (toLowerStr f) "flyer" = true →
      artworkKey f = some (firstSegment (pathStem f))) ∧
    (∀ f : String, endsWithPng f = true →
      containsSub (toLowerStr f) "flyer" = false →
      containsSub (toLowerStr f) "marquee" = true →
      artworkKey f = some (firstSegment (pathStem f) ++ "_marquee")) ∧
    (∀ (entries : List String) (id v : String), '_' ∈ id.toList →
      (artworkMediaMap entries).lookup id = some v →
      ∃ s : String, '_' ∉ s.toList ∧ id = s ++ "_marquee") := by
  refine ⟨?_, ?_, ?_⟩
  · intro f h0 h1
    unfold artworkKey
    rw [if_pos h0, if_pos h1]
  · intro f h0 h1 h2
    unfold artworkKey
    rw [if_pos h0, if_neg (by simp [h1]), if_pos h2]
  · intro entries id v hu hl
    have hmem := lookup_mem hl
    have hk : artworkKey v = some id :=
      artworkMediaMap_shape entries (id, v) hmem
    rcases artworkKey_cases hk with h1 | h2
    · exact absurd (h1 ▸ hu) (firstSegment_no_underscore (pathStem v))
    · exact ⟨firstSegment (pathStem v),
        firstSegment_no_underscore (pathStem v), h2⟩

/-- C10 witness: the amended theorem applied at concrete flyer and
marquee entries, and at the concrete map of the counterexample input. -/
theorem c10_witness :
    artworkKey "pacman_flyer.png" = some "pacman" ∧
    artworkKey "galaga_marquee.png" = some "galaga_marquee" ∧
    ∃ s : String, '_' ∉ s.toList ∧ "pac_marquee" = s ++ "_marquee" := by
  refine ⟨?_, ?_, ?_⟩
  · have h := c10_artwork_keys.1 "pacman_flyer.png" (by decide) (by decide)
    rw [h]
    decide
  · have h := c10_artwork_keys.2.1 "galaga_marquee.png" (by decide)
      (by decide) (by decide)
    rw [h]
    decide
  · exact c10_artwork_keys.2.2 ["pac_marquee.png"] "pac_marquee"
      "pac_marquee.png" (by decide) (by decide)
